import Mathlib

/-!
Shallow embedding of the `pxe-js/cluster` supervisor (src, final revision):
a `Cluster` class with an overloaded constructor, `normalizeOptions`, a
fork loop run in the primary process by `start()`, and the error/exit
policy handlers installed by `start()`.  Machine-level effects
(`console.log`, `process.exit()`, `this.emit(...)`, `cluster.fork()`) are
modelled as elements of an event trace; `process.exit()` and an uncaught
rethrow halt the trace.
-/

/-- Allowed actions for the worker-error policy (`Cluster.ErrorEvent`,
the string union `exit | continue | throw | log`; `continue` is spelled
`cont` because `continue` is a Lean keyword). -/
inductive ErrorAction
  | exit
  | cont
  | throw
  | log
deriving DecidableEq

/-- Allowed actions for the worker-exit policy (`Cluster.ExitEvent`,
the string union `exit | log`). -/
inductive ExitAction
  | exit
  | log
deriving DecidableEq

/-- Observable events of `start()`: forks, emitted notifications, log
lines, the worker-side disconnect signal, process termination and a
rethrown error. -/
inductive Ev
  | fork (wid : Nat)
  | notifyStart (wid : Nat)
  | throwErr (msg : String)
  | logError (msg : String) (pid : Nat)
  | disconnect
  | terminate
  | notifyError (msg : String) (pid : Nat)
  | logExit (wpid : Nat)
  | notifyExit (wpid : Nat)
deriving DecidableEq

/-- Result of one JS statement: either fall through to the next statement
after emitting some events, or halt the process (modelling
`process.exit()` and an uncaught rethrow, which never return control). -/
inductive Outcome
  | next (evs : List Ev)
  | halt (evs : List Ev)

/-- Run a statement list in order; a halting statement discards
everything after it. -/
def seqRun : List Outcome → List Ev
  | [] => []
  | Outcome.next e :: rest => e ++ seqRun rest
  | Outcome.halt e :: _ => e

/-- Optional-chaining membership test `p?.includes(a)`: an `undefined`
policy yields a falsy result.  After `normalizeOptions` a configured
policy is always an array, so array `includes` is element membership. -/
def includes {α : Type} [DecidableEq α] (p : Option (List α)) (a : α) : Bool :=
  match p with
  | none => false
  | some l => decide (a ∈ l)

/-- Worker-side `handler` for `uncaughtException` in `start()`.  The
source tests each action by `evOpts.error?.includes(...)` in the fixed
statement order throw, log, exit, then runs
`this.emit("error", err, process)`. -/
def handler (error : Option (List ErrorAction)) (msg : String) (pid : Nat) : List Ev :=
  seqRun
    [ if includes error ErrorAction.throw then Outcome.halt [Ev.throwErr msg]
      else Outcome.next []
    , if includes error ErrorAction.log then Outcome.next [Ev.logError msg pid]
      else Outcome.next []
    , if includes error ErrorAction.exit then Outcome.halt [Ev.disconnect, Ev.terminate]
      else Outcome.next []
    , Outcome.next [Ev.notifyError msg pid] ]

/-- Coordinator-side `exit` callback registered by `start()` on the
runtime's exit notifications.  The source tests `evOpts.exit?.includes`
in the fixed statement order log, exit, then runs
`this.emit("exit", ...args)`; `wpid` is `args[0].process.pid`. -/
def exitHandler (exitPolicy : Option (List ExitAction)) (wpid : Nat) : List Ev :=
  seqRun
    [ if includes exitPolicy ExitAction.log then Outcome.next [Ev.logExit wpid]
      else Outcome.next []
    , if includes exitPolicy ExitAction.exit then Outcome.halt [Ev.terminate]
      else Outcome.next []
    , Outcome.next [Ev.notifyExit wpid] ]

/-- A policy entry as supplied by the caller: either a singular value or
an array of values (`ErrorEvent | ErrorEvent[]`). -/
inductive PolicyValue (α : Type)
  | single (a : α)
  | list (l : List α)
deriving DecidableEq

/-- The `events` option record; `none` is an absent (undefined) entry. -/
structure EventOpts where
  error : Option (PolicyValue ErrorAction) := none
  exit : Option (PolicyValue ExitAction) := none
deriving DecidableEq

/-- The `listen` option record; the `listeningListener` callback is
opaque. -/
structure ListenOpts where
  port : Option Int := none
  hostname : Option String := none
  backlog : Option Int := none
  listeningListener : Option Unit := none
deriving DecidableEq

/-- The `Cluster.Options` record; `advanced` is an opaque pass-through to
the server collaborator. -/
structure Options where
  advanced : Option Unit := none
  listen : Option ListenOpts := none
  events : Option EventOpts := none
  isHttps : Option Bool := none
deriving DecidableEq

/-- A positional constructor argument, as a JS value: `undefined`, a
number, an options object, or a function (the app callback). -/
inductive Arg
  | undefined
  | num (n : Int)
  | obj (o : Options)
  | fn
deriving DecidableEq

/-- JS truthiness of an argument: `undefined` and `0` are falsy, objects
and functions are truthy. -/
def Arg.truthy : Arg → Bool
  | Arg.undefined => false
  | Arg.num n => decide (n ≠ 0)
  | Arg.obj _ => true
  | Arg.fn => true

/-- The `Cluster` instance fields; each starts out `undefined` and is
assigned by the constructor and `normalizeOptions`. -/
structure Cluster where
  app : Arg := Arg.undefined
  options : Arg := Arg.undefined
  instances : Arg := Arg.undefined
deriving DecidableEq

/-- Wrap a present singular policy entry into a one-element array, the
body of the `for (const key in opts.events)` loop: a value that is not an
array becomes `[value]`, an array is left as is, an absent entry is not
visited. -/
def normalizePolicy {α : Type} : Option (PolicyValue α) → Option (PolicyValue α)
  | none => none
  | some (PolicyValue.single a) => some (PolicyValue.list [a])
  | some (PolicyValue.list l) => some (PolicyValue.list l)

/-- Apply `normalizePolicy` to both entries of the `events` record. -/
def normalizeEvents (e : EventOpts) : EventOpts :=
  { error := normalizePolicy e.error, exit := normalizePolicy e.exit }

/-- Options-record part of `normalizeOptions`: fill `events` and `listen`
with `\x7b\x7d` when unset, then wrap singular policy entries.  In the JS
source these are in-place writes on the caller's object (through
`@ts-ignore`), so the returned record is what the caller's reference
observes afterwards. -/
def normOpts (o : Options) : Options :=
  let o := if o.events = none then { o with events := some {} } else o
  let o := if o.listen = none then { o with listen := some {} } else o
  { o with events := Option.map normalizeEvents o.events }

/-- Model of `normalizeOptions(cls)`: default `options` to `\x7b\x7d` and
`instances` to `cpus().length` when falsy, then normalize the options
record in place.  A truthy non-object options value is left as is (not
reachable through the documented overloads). -/
def normalizeOptions (ncpu : Int) (cls : Cluster) : Cluster :=
  let cls := if cls.options.truthy then cls else { cls with options := Arg.obj {} }
  let cls := if cls.instances.truthy then cls else { cls with instances := Arg.num ncpu }
  match cls.options with
  | Arg.obj o => { cls with options := Arg.obj (normOpts o) }
  | _ => cls

/-- Model of the overloaded constructor: `args[0]` must be a function or
the constructor throws; a truthy second argument is the instance count
(number) or the options (otherwise), unless a truthy third argument
forces the second to be the count; finally `normalizeOptions` runs. -/
def construct (ncpu : Int) (firstArg nextArg lastArg : Arg) : Except String Cluster :=
  if firstArg ≠ Arg.fn then Except.error "Target app is not specified"
  else
    let cls : Cluster := { app := firstArg }
    let cls :=
      if nextArg.truthy then
        if lastArg.truthy then { cls with options := lastArg, instances := nextArg }
        else
          match nextArg with
          | Arg.num _ => { cls with instances := nextArg }
          | _ => { cls with options := nextArg }
      else cls
    Except.ok (normalizeOptions ncpu cls)

/-- One iteration of the fork loop, the private `fork()` method:
`cluster.fork()` yields a fresh worker handle (modelled by its index) and
the `start` notification is emitted synchronously; the `disconnect`
wiring only registers a callback and emits nothing. -/
def fork (wid : Nat) : List Ev := [Ev.fork wid, Ev.notifyStart wid]

/-- Primary-role branch of `start()`: the loop
`for (let i = 0; i < this.instances; ++i) this.fork()`. -/
def startPrimary (k : Nat) : List Ev := (List.range k).flatMap fork

/-- Port passed to `.listen` in the worker branch of `start()`:
`listenOpts.port || 8080`; JS `||` substitutes the default both for
`undefined` and for `0`. -/
def listenPort (l : ListenOpts) : Int :=
  match l.port with
  | some p => if p ≠ 0 then p else 8080
  | none => 8080

/-- Worker handles carried by the `start` notifications of a trace, in
emission order. -/
def startsOf (t : List Ev) : List Nat :=
  t.filterMap fun e =>
    match e with
    | Ev.notifyStart wid => some wid
    | _ => none

/-- Helper: `normalizePolicy` is idempotent on any policy entry. -/
theorem normalizePolicy_idem {α : Type} (v : Option (PolicyValue α)) :
    normalizePolicy (normalizePolicy v) = normalizePolicy v := by
  rcases v with _ | v
  · rfl
  · cases v <;> rfl

/-- Claim C1 counterexample: with the configured exit policy
`[exit, log]` the engine logs first and only then terminates — the log
line precedes `terminate` in the trace — contradicting execution in
configured-sequence order, which would terminate before logging. -/
theorem C1_counterexample :
    exitHandler (some [ExitAction.exit, ExitAction.log]) 7
      = [Ev.logExit 7, Ev.terminate] ∧
    (exitHandler (some [ExitAction.exit, ExitAction.log]) 7).indexOf (Ev.logExit 7) <
      (exitHandler (some [ExitAction.exit, ExitAction.log]) 7).indexOf Ev.terminate := by
  decide

/-- Claim C1 (amended): for every configured policy sequence for a worker
error or exit event, each listed action executes at most once and the
trace depends only on which actions are members of the sequence, not on
their order or multiplicity; actions run in the fixed engine order
(error: throw, log, exit; exit: log, exit), so in particular any exit
policy containing both `log` and `exit` logs and then terminates. -/
theorem C1_theorem (pe qe : Option (List ExitAction)) (pr qr : Option (List ErrorAction))
    (wpid pid : Nat) (msg : String)
    (h1 : includes pe ExitAction.log = includes qe ExitAction.log)
    (h2 : includes pe ExitAction.exit = includes qe ExitAction.exit)
    (h3 : includes pr ErrorAction.throw = includes qr ErrorAction.throw)
    (h4 : includes pr ErrorAction.log = includes qr ErrorAction.log)
    (h5 : includes pr ErrorAction.exit = includes qr ErrorAction.exit) :
    exitHandler pe wpid = exitHandler qe wpid ∧
    handler pr msg pid = handler qr msg pid ∧
    (includes pe ExitAction.log = true → includes pe ExitAction.exit = true →
      exitHandler pe wpid = [Ev.logExit wpid, Ev.terminate]) := by
  refine ⟨?_, ?_, ?_⟩
  · unfold exitHandler
    rw [h1, h2]
  · unfold handler
    rw [h3, h4, h5]
  · intro hl hx
    simp [exitHandler, hl, hx, seqRun]

/-- Claim C1 witness: the exit policies `[exit, log]` and `[log, exit]`
agree on membership of each action, and the engine gives them the same
trace. -/
theorem C1_witness :
    (includes (some [ExitAction.exit, ExitAction.log]) ExitAction.log
      = includes (some [ExitAction.log, ExitAction.exit]) ExitAction.log) ∧
    (includes (some [ExitAction.exit, ExitAction.log]) ExitAction.exit
      = includes (some [ExitAction.log, ExitAction.exit]) ExitAction.exit) ∧
    exitHandler (some [ExitAction.exit, ExitAction.log]) 7
      = exitHandler (some [ExitAction.log, ExitAction.exit]) 7 :=
  ⟨by decide, by decide,
    (C1_theorem (some [ExitAction.exit, ExitAction.log])
      (some [ExitAction.log, ExitAction.exit]) none none 7 0 ""
      (by decide) (by decide) (by decide) (by decide) (by decide)).1⟩

/-- Claim C2 counterexample: for the exit policy `[log, exit]` the trace
is exactly a log line followed by termination; the generic `exit`
notification never fires, in particular not before termination —
`process.exit()` preempts the emit that follows it in the source. -/
theorem C2_counterexample :
    exitHandler (some [ExitAction.log, ExitAction.exit]) 7
      = [Ev.logExit 7, Ev.terminate] ∧
    Ev.notifyExit 7 ∉ exitHandler (some [ExitAction.log, ExitAction.exit]) 7 := by
  decide

/-- Claim C2 (amended): the generic notification fires, and fires last,
exactly when no halting action is configured — `exit` for exit events,
`throw` or `exit` for error events; a configured halting action
terminates (or rethrows from) the process before the emit statement is
reached, so the notification never fires in those runs. -/
theorem C2_theorem (pe : Option (List ExitAction)) (pr : Option (List ErrorAction))
    (wpid pid : Nat) (msg : String) :
    (if includes pe ExitAction.exit
      then Ev.notifyExit wpid ∉ exitHandler pe wpid ∧
           (exitHandler pe wpid).getLast? = some Ev.terminate
      else (exitHandler pe wpid).getLast? = some (Ev.notifyExit wpid)) ∧
    (if includes pr ErrorAction.throw
      then handler pr msg pid = [Ev.throwErr msg]
      else if includes pr ErrorAction.exit
      then Ev.notifyError msg pid ∉ handler pr msg pid ∧
           (handler pr msg pid).getLast? = some Ev.terminate
      else (handler pr msg pid).getLast? = some (Ev.notifyError msg pid)) := by
  constructor
  · cases hx : includes pe ExitAction.exit <;>
      cases hl : includes pe ExitAction.log <;>
      simp [exitHandler, hx, hl, seqRun]
  · cases ht : includes pr ErrorAction.throw <;>
      cases hx : includes pr ErrorAction.exit <;>
      cases hl : includes pr ErrorAction.log <;>
      simp [handler, ht, hx, hl, seqRun]

/-- Claim C3: with an explicitly empty error policy, a simulated uncaught
error in a worker produces exactly one generic `error` notification
carrying the error and the current process, and neither terminates nor
rethrows. -/
theorem C3_theorem (msg : String) (pid : Nat) :
    handler (some []) msg pid = [Ev.notifyError msg pid] ∧
    (handler (some []) msg pid).count (Ev.notifyError msg pid) = 1 ∧
    Ev.terminate ∉ handler (some []) msg pid ∧
    Ev.throwErr msg ∉ handler (some []) msg pid := by
  refine ⟨rfl, ?_, by simp [handler, includes, seqRun], by simp [handler, includes, seqRun]⟩
  simp [handler, includes, seqRun]

/-- Claim C4: constructing with a first argument that is not a function
fails synchronously with the configuration error, so no cluster instance
exists for `start()` to fork or listen from. -/
theorem C4_theorem (ncpu : Int) (firstArg nextArg lastArg : Arg)
    (h : firstArg ≠ Arg.fn) :
    construct ncpu firstArg nextArg lastArg
      = Except.error "Target app is not specified" := by
  simp [construct, h]

/-- Claim C4 witness at a missing (undefined) first argument. -/
theorem C4_witness :
    Arg.undefined ≠ Arg.fn ∧
    construct 4 Arg.undefined (Arg.num 2) Arg.undefined
      = Except.error "Target app is not specified" :=
  ⟨by decide, C4_theorem 4 Arg.undefined (Arg.num 2) Arg.undefined (by decide)⟩

/-- Claim C5: normalization wraps every singular policy entry into the
one-element sequence `[value]`, leaves an already-sequence entry
unchanged, and is idempotent on policy entries. -/
theorem C5_theorem (a : ErrorAction) (b : ExitAction)
    (l : List ErrorAction) (m : List ExitAction)
    (v : Option (PolicyValue ErrorAction)) (e : EventOpts) :
    normalizePolicy (some (PolicyValue.single a)) = some (PolicyValue.list [a]) ∧
    normalizePolicy (some (PolicyValue.list l)) = some (PolicyValue.list l) ∧
    normalizePolicy (some (PolicyValue.single b)) = some (PolicyValue.list [b]) ∧
    normalizePolicy (some (PolicyValue.list m)) = some (PolicyValue.list m) ∧
    normalizePolicy (normalizePolicy v) = normalizePolicy v ∧
    normalizeEvents (normalizeEvents e) = normalizeEvents e := by
  refine ⟨rfl, rfl, rfl, rfl, normalizePolicy_idem v, ?_⟩
  simp [normalizeEvents, normalizePolicy_idem]

/-- Shared concrete options value: `\x7b listen: \x7b port: 9000 \x7d \x7d`. -/
def portOpts : Options := { listen := some { port := some 9000 } }

/-- Claim C6: `new(app, 4)` resolves to an instance count of 4 with the
listen port defaulting to 8080; `new(app, \x7blisten:\x7bport: 9000\x7d\x7d)`
resolves to the host's logical CPU count with listen port 9000; and a
count of 0 takes the CPU-count default exactly like an unset count. -/
theorem C6_theorem (ncpu : Int) :
    construct ncpu Arg.fn (Arg.num 4) Arg.undefined =
      Except.ok { app := Arg.fn,
                  options := Arg.obj { events := some {}, listen := some {} },
                  instances := Arg.num 4 } ∧
    listenPort {} = 8080 ∧
    construct ncpu Arg.fn (Arg.obj portOpts) Arg.undefined =
      Except.ok { app := Arg.fn,
                  options := Arg.obj { events := some {},
                                       listen := some { port := some 9000 } },
                  instances := Arg.num ncpu } ∧
    listenPort { port := some 9000 } = 9000 ∧
    construct ncpu Arg.fn (Arg.num 0) Arg.undefined =
      Except.ok { app := Arg.fn,
                  options := Arg.obj { events := some {}, listen := some {} },
                  instances := Arg.num ncpu } := by
  refine ⟨rfl, rfl, rfl, rfl, rfl⟩

/-- Claim C7 counterexample: in the call `new(app, 0, \x7blisten:
\x7bport: 9000\x7d\x7d)` the third argument is present, yet because the
second argument 0 is falsy the whole assignment branch is skipped: the
third argument's configuration is discarded (the resolved options carry
no port) instead of being taken as the configuration. -/
theorem C7_counterexample :
    construct 3 Arg.fn (Arg.num 0) (Arg.obj portOpts) =
      Except.ok { app := Arg.fn,
                  options := Arg.obj { events := some {}, listen := some {} },
                  instances := Arg.num 3 } ∧
    Arg.obj { events := some {}, listen := some {} } ≠ Arg.obj (normOpts portOpts) := by
  exact ⟨rfl, by decide⟩

/-- Claim C7 (amended): a present third argument forces the second to be
the worker count and the third to be the configuration only when the
second argument is truthy (a non-zero number); when the second argument
is 0 both it and the third argument are ignored and the defaults apply,
exactly as if the constructor had been called with the app alone.  With
two arguments, a (truthy) number is the worker count and a structured
value is the configuration. -/
theorem C7_theorem (ncpu n : Int) (oc : Options) (h : n ≠ 0) :
    construct ncpu Arg.fn (Arg.num n) (Arg.obj oc) =
      Except.ok { app := Arg.fn, options := Arg.obj (normOpts oc),
                  instances := Arg.num n } ∧
    construct ncpu Arg.fn (Arg.num 0) (Arg.obj oc) =
      construct ncpu Arg.fn Arg.undefined Arg.undefined ∧
    construct ncpu Arg.fn (Arg.obj oc) Arg.undefined =
      Except.ok { app := Arg.fn, options := Arg.obj (normOpts oc),
                  instances := Arg.num ncpu } := by
  refine ⟨?_, rfl, rfl⟩
  simp [construct, normalizeOptions, Arg.truthy, h]

/-- Claim C7 witness at worker count 5 and a concrete options record. -/
theorem C7_witness :
    (5 : Int) ≠ 0 ∧
    construct 2 Arg.fn (Arg.num 5) (Arg.obj portOpts) =
      Except.ok { app := Arg.fn, options := Arg.obj (normOpts portOpts),
                  instances := Arg.num 5 } :=
  ⟨by decide, (C7_theorem 2 5 portOpts (by decide)).1⟩

/-- Shared concrete options value with a singular error policy entry. -/
def singularOpts : Options :=
  { events := some { error := some (PolicyValue.single ErrorAction.log) } }

/-- Claim C8 counterexample: normalization writes through the caller's
options reference (the in-place `opts.events[key] = [...]` and
`opts.events = \x7b\x7d` assignments), so the caller's object is observed
changed after construction: the normalized record differs from the
supplied one — the singular error entry has become a one-element array
and `listen` has been filled in. -/
theorem C8_counterexample :
    normOpts singularOpts ≠ singularOpts ∧
    normOpts singularOpts =
      { events := some { error := some (PolicyValue.list [ErrorAction.log]) },
        listen := some {} } := by
  decide

/-- Claim C8 (amended): normalization mutates the caller-supplied options
record in place — filling `events` and `listen` and wrapping singular
policy entries — but it is idempotent and leaves the `advanced` and
`isHttps` fields untouched, so a second construction over the same
(already normalized) object observes no further change. -/
theorem C8_theorem (o : Options) :
    normOpts (normOpts o) = normOpts o ∧
    (normOpts o).advanced = o.advanced ∧
    (normOpts o).isHttps = o.isHttps ∧
    (normOpts o).listen = some (o.listen.getD {}) := by
  rcases o with ⟨adv, lis, evs, https⟩
  cases evs <;> cases lis <;>
    simp [normOpts, normalizeEvents, normalizePolicy_idem]

/-- Helper: unfolding the fork loop by its last iteration. -/
theorem startPrimary_succ (k : Nat) :
    startPrimary (k + 1) = startPrimary k ++ [Ev.fork k, Ev.notifyStart k] := by
  simp [startPrimary, List.range_succ, fork]

/-- Helper: the fork loop for `k` workers produces a trace of length
`2 * k`. -/
theorem startPrimary_length (k : Nat) : (startPrimary k).length = 2 * k := by
  induction k with
  | zero => rfl
  | succ n ih =>
    rw [startPrimary_succ]
    simp [ih]
    omega

/-- Helper: the `start` notifications of the fork loop carry the worker
handles `0, ..., k-1` in fork order. -/
theorem startsOf_startPrimary (k : Nat) : startsOf (startPrimary k) = List.range k := by
  induction k with
  | zero => rfl
  | succ n ih =>
    rw [startPrimary_succ, List.range_succ, startsOf, List.filterMap_append]
    rw [startsOf] at ih
    rw [ih]
    rfl

/-- Helper: in the fork-loop trace, fork `i` sits at index `2i` and its
`start` notification at index `2i + 1`. -/
theorem startPrimary_get (k i : Nat) (h : i < k) :
    (startPrimary k)[2 * i]? = some (Ev.fork i) ∧
    (startPrimary k)[2 * i + 1]? = some (Ev.notifyStart i) := by
  induction k with
  | zero => exact absurd h (Nat.not_lt_zero i)
  | succ n ih =>
    rw [startPrimary_succ]
    rcases Nat.lt_succ_iff_lt_or_eq.mp h with hi | hi
    · have h1 : 2 * i < (startPrimary n).length := by
        rw [startPrimary_length]; omega
      have h2 : 2 * i + 1 < (startPrimary n).length := by
        rw [startPrimary_length]; omega
      rw [List.getElem?_append, List.getElem?_append, if_pos h1, if_pos h2]
      exact ih hi
    · subst hi
      have h1 : ¬ 2 * i < (startPrimary i).length := by
        rw [startPrimary_length]; omega
      have h2 : ¬ 2 * i + 1 < (startPrimary i).length := by
        rw [startPrimary_length]; omega
      rw [List.getElem?_append, List.getElem?_append, if_neg h1, if_neg h2,
          startPrimary_length]
      constructor
      · simp [Nat.sub_self]
      · have e1 : 2 * i + 1 - 2 * i = 1 := by omega
        rw [e1]
        rfl

/-- Claim C9: for every worker count `k ≥ 1`, the coordinator branch of
`start()` forks exactly `k` workers and emits exactly `k` `start`
notifications carrying the distinct handles `0, ..., k-1` in fork order,
with the trace interleaved so that fork `i` is immediately followed by
notification `i`, before fork `i + 1` begins. -/
theorem C9_theorem (k : Nat) (h : 1 ≤ k) :
    startsOf (startPrimary k) = List.range k ∧
    (startsOf (startPrimary k)).Nodup ∧
    (startPrimary k).length = 2 * k ∧
    (∀ i, i < k → (startPrimary k)[2 * i]? = some (Ev.fork i) ∧
                  (startPrimary k)[2 * i + 1]? = some (Ev.notifyStart i)) := by
  refine ⟨startsOf_startPrimary k, ?_, startPrimary_length k,
    fun i hi => startPrimary_get k i hi⟩
  rw [startsOf_startPrimary]
  exact List.nodup_range k

/-- Claim C9 witness at `k = 2`. -/
theorem C9_witness :
    1 ≤ 2 ∧ startsOf (startPrimary 2) = List.range 2 :=
  ⟨by decide, (C9_theorem 2 (by decide)).1⟩

/-- Claim C10: an explicitly configured listen port of 0 is falsy, so the
worker bootstrap substitutes the default: the worker listens on 8080,
identically to leaving the port unset; the constructor meanwhile passes
the 0 through unchanged into the resolved options. -/
theorem C10_theorem (hn : Option String) (b : Option Int) (f : Option Unit) :
    listenPort { port := some 0, hostname := hn, backlog := b,
                 listeningListener := f } = 8080 ∧
    listenPort { port := some 0, hostname := hn, backlog := b,
                 listeningListener := f } =
      listenPort { port := none, hostname := hn, backlog := b,
                   listeningListener := f } ∧
    construct 2 Arg.fn (Arg.obj { listen := some { port := some 0 } }) Arg.undefined =
      Except.ok { app := Arg.fn,
                  options := Arg.obj { events := some {},
                                       listen := some { port := some 0 } },
                  instances := Arg.num 2 } := by
  refine ⟨rfl, rfl, rfl⟩
